import Mathlib

/-!
Verification of the dn-check domain availability checker.

The program probes DNS for each `name.tld` pair of the cross product of an
input name list and an input TLD list, classifies each probe outcome into an
availability verdict, and aggregates per-pair results delivered over a channel
by concurrent goroutines.

The embedding below follows the current revision of the source
(`main.go` of the concurrent version): `isDomainNameAvailable` wraps
`net.LookupHost`, `checkDomains` is the goroutine body probing a slice of TLDs
and sending exactly one `Result` on the channel, and `main` dispatches one
goroutine per (name, tld) pair, closes the channel after a `WaitGroup` join,
and drains it into the final collection.

The network is modelled as a pure resolver oracle `Resolver : String →
LookupResult`; goroutine scheduling is modelled by quantifying over the
completion order (an arbitrary permutation of the dispatched pairs), and the
channel/WaitGroup mechanics by a small labelled transition system.
-/

namespace DnCheck

/-- The observable fields of Go's `*net.DNSError` value that `net.LookupHost`
returns on a DNS-level failure: not-found, timeout and temporary conditions
are all delivered as values of this one type. -/
structure DNSError where
  errStr : String
  isTimeout : Bool
  isTemporary : Bool
  isNotFound : Bool
deriving DecidableEq, Repr

/-- A Go `error` value as observed by `isDomainNameAvailable`: either a
`*net.DNSError` (the type assertion `err.(*net.DNSError)` succeeds) or any
other error value (the assertion fails). -/
inductive GoError where
  | dnsError (e : DNSError)
  | otherError (msg : String)
deriving DecidableEq, Repr

/-- The outcome of one `net.LookupHost` call: a list of addresses on success,
or a Go error value on failure. -/
inductive LookupResult where
  | ok (addrs : List String)
  | err (e : GoError)
deriving DecidableEq, Repr

/-- The network, as an oracle from fully qualified domain name to the outcome
`net.LookupHost` would produce for it. -/
def Resolver : Type := String → LookupResult

/-- Embedding of `isDomainNameAvailable(domain string) (bool, error)`:
calls `net.LookupHost(domain)`; on error, if the error is a `*net.DNSError`
(a type assertion only, no field inspection) it returns `(true, nil)`,
otherwise `(false, err)`; on success it returns `(false, nil)`. -/
def isDomainNameAvailable (resolve : Resolver) (domain : String) :
    Bool × Option GoError :=
  match resolve domain with
  | .ok _ => (false, none)
  | .err e =>
    match e with
    | .dnsError _ => (true, none)
    | .otherError _ => (false, some e)

/-- The three-outcome resolver contract of the specification. -/
inductive Outcome where
  | Registered
  | NotFound
  | TransientError
deriving DecidableEq, Repr

/-- Modelled from the spec: the Resolver Adapter contract of section 4.1,
which is absent from the source as a separate function. A successful
resolution is `Registered`; a definitive no-such-host condition (a DNS error
whose not-found classification is set) is `NotFound`; every other failure
(timeout, server failure, unreachable network, non-DNS error) is
`TransientError`. -/
def classifyOutcome (r : LookupResult) : Outcome :=
  match r with
  | .ok _ => .Registered
  | .err (.dnsError e) => if e.isNotFound then .NotFound else .TransientError
  | .err (.otherError _) => .TransientError

/-- The `TLD` struct of the source: one availability verdict. -/
structure TLD where
  TLDName : String
  IsAvailable : Bool
deriving DecidableEq, Repr

/-- The `Result` struct of the source: one name with its verdict list. -/
structure Result where
  Name : String
  TLDList : List TLD
deriving DecidableEq, Repr

/-- The loop body of `checkDomains`: probe `name.tld` for each tld in order;
on a non-nil error print and `continue` (no verdict appended), otherwise
append `TLD{tld, available}`. -/
def checkDomainsLoop (resolve : Resolver) (name : String) :
    List String → List TLD
  | [] => []
  | tld :: rest =>
    let res := isDomainNameAvailable resolve (name ++ "." ++ tld)
    match res.2 with
    | some _ => checkDomainsLoop resolve name rest
    | none => { TLDName := tld, IsAvailable := res.1 } :: checkDomainsLoop resolve name rest

/-- The messages one invocation of `checkDomains(name, tlds, results, wg)`
sends on the `results` channel: exactly the single
`Result{Name: name, TLDList: tldList}` sent after the loop. -/
def checkDomainsSends (resolve : Resolver) (name : String)
    (tlds : List String) : List Result :=
  [{ Name := name, TLDList := checkDomainsLoop resolve name tlds }]

/-- The goroutines dispatched by `main`: one per (name, tld) pair of the
cross product, in the nested loop order, with no filtering and no
deduplication (`go checkDomains(name, []string{tld}, results, &wg)`). -/
def dispatchedPairs (names tlds : List String) : List (String × String) :=
  names.flatMap (fun name => tlds.map (fun tld => (name, tld)))

/-- The single `Result` that the goroutine for pair `p` sends: `checkDomains`
applied to `p.1` and the singleton TLD slice `[p.2]`. -/
def pairResult (resolve : Resolver) (p : String × String) : Result :=
  { Name := p.1, TLDList := checkDomainsLoop resolve p.1 [p.2] }

/-- The collection the fan-in loop of `main` accumulates when the goroutines
complete in the given order: one `Result` per dispatched pair, in completion
order. -/
def collectResults (resolve : Resolver) (order : List (String × String)) :
    List Result :=
  order.map (pairResult resolve)

/-- All (name, tld) verdict pairs present in a collection, flattened. -/
def flatVerdicts (rs : List Result) : List (String × String) :=
  rs.flatMap (fun r => r.TLDList.map (fun v => (r.Name, v.TLDName)))

/-- The number of verdicts for the pair (n, t) in a collection. -/
def verdictCount (rs : List Result) (n t : String) : Nat :=
  (flatVerdicts rs).count (n, t)

/-- The console rendering of the non-JSON branch of `main`: one line per
verdict, `name.tld is available` or `name.tld is not available`, in
collection order. -/
def consoleLines (rs : List Result) : List String :=
  rs.flatMap (fun r => r.TLDList.map (fun t =>
    if t.IsAvailable then r.Name ++ "." ++ t.TLDName ++ " is available"
    else r.Name ++ "." ++ t.TLDName ++ " is not available"))

/-- The plain-text rendering of `SpoolOutputToFile`: one line
`name.tld : bool` per verdict, in collection order. -/
def spoolPlainLines (rs : List Result) : List String :=
  rs.flatMap (fun r => r.TLDList.map (fun t =>
    r.Name ++ "." ++ t.TLDName ++ " : " ++ (if t.IsAvailable then "true" else "false")))

/-- The state of the channel/WaitGroup machinery of `main`: the dispatched
goroutines that have not yet delivered their `Result`, the `Result`s the
fan-in loop has received so far (in arrival order), and whether the channel
has been closed by the `wg.Wait(); close(results)` goroutine. -/
structure ChanState where
  pending : List (String × String)
  delivered : List Result
  closed : Bool
deriving DecidableEq, Repr

/-- One step of the concurrent execution: either some still-pending goroutine
completes and its single `Result` is received by the fan-in loop (the channel
is unbuffered, so send and receive synchronize), or — once every goroutine
has delivered, i.e. after the `WaitGroup` join — the channel is closed. -/
inductive Step (resolve : Resolver) : ChanState → ChanState → Prop where
  | deliver (pre post : List (String × String)) (p : String × String)
      (delivered : List Result) :
      Step resolve
        { pending := pre ++ p :: post, delivered := delivered, closed := false }
        { pending := pre ++ post,
          delivered := delivered ++ [pairResult resolve p], closed := false }
  | close (delivered : List Result) :
      Step resolve
        { pending := [], delivered := delivered, closed := false }
        { pending := [], delivered := delivered, closed := true }

/-- The initial state of a run: every (name, tld) goroutine dispatched,
nothing delivered, channel open. -/
def initState (names tlds : List String) : ChanState :=
  { pending := dispatchedPairs names tlds, delivered := [], closed := false }

/-- The states a run can pass through. -/
def Reachable (resolve : Resolver) (s s' : ChanState) : Prop :=
  Relation.ReflTransGen (Step resolve) s s'

/-- Termination measure for the fan-in: pending goroutines plus one for the
still-open channel. -/
def chanMeasure (s : ChanState) : Nat :=
  s.pending.length + (if s.closed then 0 else 1)

/-- The accumulation invariant of the channel model: what has been delivered
is the per-pair `Result` of some list `done` of completed goroutines, `done`
together with the still-pending goroutines is a permutation of everything
dispatched, and a closed channel means no goroutine is pending. -/
def ChanInv (resolve : Resolver) (names tlds : List String) (s : ChanState) : Prop :=
  ∃ done : List (String × String),
    s.delivered = done.map (pairResult resolve) ∧
    (done ++ s.pending).Perm (dispatchedPairs names tlds) ∧
    (s.closed = true → s.pending = [])

/-- A resolver on which every lookup succeeds (every domain registered). -/
def registeredResolver : Resolver := fun _ => .ok ["0.0.0.0"]

/-- A resolver on which every lookup fails with an error that is not a
`*net.DNSError`. -/
def brokenResolver : Resolver := fun _ => .err (.otherError "lookup: no route to host")

/-- The error value `net.LookupHost` yields when the DNS query times out:
a `*net.DNSError` whose timeout classification is set and whose not-found
classification is not. -/
def timeoutDNSError : DNSError :=
  { errStr := "i/o timeout", isTimeout := true, isTemporary := true,
    isNotFound := false }

/-- A resolver on which every lookup fails with a DNS timeout. -/
def timeoutResolver : Resolver := fun _ => .err (.dnsError timeoutDNSError)

theorem countP_const {α : Type} (b : Bool) (l : List α) :
    l.countP (fun _ => b) = if b then l.length else 0 := by
  cases b <;> simp

theorem dispatched_countP_fst (names tlds : List String) (n : String) :
    (dispatchedPairs names tlds).countP (fun p => p.1 == n)
      = names.count n * tlds.length := by
  induction names with
  | nil => simp [dispatchedPairs]
  | cons m rest ih =>
    have hmap : (tlds.map (fun tld => (m, tld))).countP (fun p => p.1 == n)
        = if m == n then tlds.length else 0 := by
      rw [List.countP_map]
      exact countP_const (m == n) tlds
    simp only [dispatchedPairs, List.flatMap_cons] at ih ⊢
    rw [List.countP_append, hmap, ih, List.count_cons]
    cases h : (m == n) with
    | false => simp [h]
    | true => simp only [h, if_true]; ring

theorem dispatched_count_pair (names tlds : List String) (n t : String) :
    (dispatchedPairs names tlds).count (n, t) = names.count n * tlds.count t := by
  induction names with
  | nil => simp [dispatchedPairs]
  | cons m rest ih =>
    have hmap : ∀ l : List String, (l.map (fun tld => (m, tld))).count (n, t)
        = if m == n then l.count t else 0 := by
      intro l
      induction l with
      | nil => cases h : (m == n) <;> simp [h]
      | cons s rest ihl =>
        rw [List.map_cons, List.count_cons, ihl, List.count_cons]
        cases h : (m == n) <;> cases h2 : (s == t) <;>
          simp [h, h2, show ((m, s) == (n, t)) = (m == n && s == t) from rfl]
    simp only [dispatchedPairs, List.flatMap_cons] at ih ⊢
    rw [List.count_append, hmap, ih, List.count_cons]
    cases h : (m == n) with
    | false => simp [h]
    | true => simp only [h, if_true, Nat.mul_one]; ring

theorem dispatched_length (names tlds : List String) :
    (dispatchedPairs names tlds).length = names.length * tlds.length := by
  induction names with
  | nil => simp [dispatchedPairs]
  | cons m rest ih =>
    simp only [dispatchedPairs, List.flatMap_cons] at ih ⊢
    simp only [List.length_append, List.length_cons, List.length_map, ih]
    ring

theorem flatVerdicts_collect (resolve : Resolver) (order : List (String × String)) :
    flatVerdicts (collectResults resolve order)
      = order.filter
          (fun p => ((isDomainNameAvailable resolve (p.1 ++ "." ++ p.2)).2).isNone) := by
  induction order with
  | nil => rfl
  | cons p rest ih =>
    simp only [collectResults, List.map_cons, flatVerdicts, List.flatMap_cons] at ih ⊢
    rw [List.filter_cons]
    cases h : (isDomainNameAvailable resolve (p.1 ++ "." ++ p.2)).2 with
    | none => simp [pairResult, checkDomainsLoop, h, ih]
    | some e => simp [pairResult, checkDomainsLoop, h, ih]

theorem collect_map_name (resolve : Resolver) (order : List (String × String)) :
    (collectResults resolve order).map (fun r => r.Name)
      = order.map (fun p => p.1) := by
  simp only [collectResults, List.map_map]
  rfl

theorem chanInv_init (resolve : Resolver) (names tlds : List String) :
    ChanInv resolve names tlds (initState names tlds) := by
  refine ⟨[], rfl, by simp [initState], ?_⟩
  intro h
  simp [initState] at h

theorem chanInv_step (resolve : Resolver) (names tlds : List String)
    {s s' : ChanState} (hstep : Step resolve s s')
    (hinv : ChanInv resolve names tlds s) :
    ChanInv resolve names tlds s' := by
  obtain ⟨done, hdel, hperm, _⟩ := hinv
  cases hstep with
  | deliver pre post p delivered =>
    refine ⟨done ++ [p], ?_, ?_, ?_⟩
    · simp only at hdel
      simp [hdel]
    · have h1 : ((done ++ [p]) ++ (pre ++ post)).Perm (done ++ (pre ++ p :: post)) := by
        rw [List.append_assoc]
        exact List.Perm.append_left done (by simpa using List.perm_middle.symm)
      exact h1.trans (by simpa using hperm)
    · intro h
      simp at h
  | close delivered =>
    exact ⟨done, hdel, by simpa using hperm, fun _ => rfl⟩

theorem chanInv_reachable (resolve : Resolver) (names tlds : List String)
    {s : ChanState} (h : Reachable resolve (initState names tlds) s) :
    ChanInv resolve names tlds s := by
  induction h with
  | refl => exact chanInv_init resolve names tlds
  | tail _ hstep ih => exact chanInv_step resolve names tlds hstep ih

theorem collect_countP_name (resolve : Resolver) (names tlds : List String)
    (order : List (String × String))
    (hperm : order.Perm (dispatchedPairs names tlds)) (n : String) :
    (collectResults resolve order).countP (fun r => r.Name == n)
      = names.count n * tlds.length := by
  simp only [collectResults]
  rw [List.countP_map]
  have hcomp : ((fun r => r.Name == n) ∘ pairResult resolve)
      = fun p : String × String => p.1 == n := rfl
  rw [hcomp, hperm.countP_eq, dispatched_countP_fst]

theorem count_filter_of_true {α : Type} [BEq α] [LawfulBEq α] (p : α → Bool)
    (a : α) (l : List α) (h : p a = true) : (l.filter p).count a = l.count a :=
  List.count_filter h

theorem perm_count_eq {α : Type} [BEq α] {l1 l2 : List α} (h : l1.Perm l2)
    (a : α) : l1.count a = l2.count a := by
  rw [List.count_eq_countP, List.count_eq_countP]
  exact h.countP_eq _

theorem verdictCount_collect (resolve : Resolver) (names tlds : List String)
    (order : List (String × String))
    (hperm : order.Perm (dispatchedPairs names tlds)) (n t : String)
    (hok : (isDomainNameAvailable resolve (n ++ "." ++ t)).2 = none) :
    verdictCount (collectResults resolve order) n t
      = names.count n * tlds.count t := by
  rw [verdictCount, flatVerdicts_collect]
  have hpred : (fun p : String × String =>
      ((isDomainNameAvailable resolve (p.1 ++ "." ++ p.2)).2).isNone) (n, t) = true := by
    simp [hok]
  rw [count_filter_of_true
        (fun p : String × String =>
          ((isDomainNameAvailable resolve (p.1 ++ "." ++ p.2)).2).isNone)
        (n, t) order hpred,
      perm_count_eq hperm, dispatched_count_pair]

/-- Claim C1, code divergence: a DNS timeout is a transient error under the
resolver contract (it is not a definitive not-found condition), yet
`isDomainNameAvailable` returns `(true, nil)` for it, so the probe emits a
verdict with `available=true` instead of emitting no verdict. The code only
type-asserts `err.(*net.DNSError)` and never inspects the not-found
classification, so every DNS-level failure — timeout, server failure,
not-found alike — is reported as available. -/
theorem timeout_misclassified_as_available :
    classifyOutcome (timeoutResolver "example.com") = Outcome.TransientError ∧
    isDomainNameAvailable timeoutResolver "example.com" = (true, none) :=
  ⟨rfl, rfl⟩

/-- Claim C2: a per-probe error never aborts sibling probes or the run. The
fan-in always completes with one `Result` per dispatched (name, tld) pair —
there is no early return in the concurrent path — an errored probe merely
contributes an empty verdict list, and each pair's `Result` depends only on
the resolver's answer for that pair's own domain, so an error injected at one
pair cannot change any sibling's contribution. -/
theorem probe_error_never_aborts (resolve : Resolver) (names tlds : List String)
    (order : List (String × String))
    (hperm : order.Perm (dispatchedPairs names tlds)) :
    (collectResults resolve order).length = names.length * tlds.length ∧
    (∀ p : String × String,
      ((isDomainNameAvailable resolve (p.1 ++ "." ++ p.2)).2).isSome →
      pairResult resolve p = { Name := p.1, TLDList := [] }) ∧
    (∀ (resolve2 : Resolver) (p : String × String),
      resolve2 (p.1 ++ "." ++ p.2) = resolve (p.1 ++ "." ++ p.2) →
      pairResult resolve2 p = pairResult resolve p) := by
  refine ⟨?_, ?_, ?_⟩
  · rw [collectResults, List.length_map, hperm.length_eq, dispatched_length]
  · intro p hsome
    rw [Option.isSome_iff_exists] at hsome
    obtain ⟨e, he⟩ := hsome
    simp [pairResult, checkDomainsLoop, he]
  · intro resolve2 p hagree
    simp [pairResult, checkDomainsLoop, isDomainNameAvailable, hagree]

/-- Witness for claim C2 at a concrete run: one name, two TLDs, every lookup
failing with a non-DNS error; the collection still has one entry per pair and
the errored pair contributes an empty verdict list. -/
theorem probe_error_never_aborts_witness :
    (collectResults brokenResolver (dispatchedPairs ["a"] ["com", "net"])).length
        = (["a"] : List String).length * (["com", "net"] : List String).length ∧
    pairResult brokenResolver ("a", "com") = { Name := "a", TLDList := [] } := by
  have h := probe_error_never_aborts brokenResolver ["a"] ["com", "net"]
    (dispatchedPairs ["a"] ["com", "net"]) (List.Perm.refl _)
  exact ⟨h.1, h.2.1 ("a", "com") (by decide)⟩

/-- Claim C3, counterexample: with one input name and two TLDs and a resolver
on which every domain is registered, the collection `main` accumulates
contains two entries named `a` — one per (name, tld) goroutine — not exactly
one entry per name. -/
theorem name_duplicated_per_tld :
    (collectResults registeredResolver (dispatchedPairs ["a"] ["com", "net"])).countP
        (fun r => r.Name == "a") = 2 ∧
    ¬ (collectResults registeredResolver (dispatchedPairs ["a"] ["com", "net"])).countP
        (fun r => r.Name == "a") = 1 :=
  ⟨rfl, by decide⟩

/-- Claim C3, amended: each input name appears in the finalized collection
once per dispatched (name, tld) probe — (multiplicity in the name list) ×
(number of TLDs) times — not exactly once; and the collection order follows
probe completion order (its names are the first components of the completion
order), not input order. An errored probe still contributes its entry, with
an empty verdict list. -/
theorem collect_name_multiplicity (resolve : Resolver) (names tlds : List String)
    (order : List (String × String))
    (hperm : order.Perm (dispatchedPairs names tlds)) (n : String) :
    (collectResults resolve order).countP (fun r => r.Name == n)
        = names.count n * tlds.length ∧
    (collectResults resolve order).map (fun r => r.Name)
        = order.map (fun p => p.1) :=
  ⟨collect_countP_name resolve names tlds order hperm n,
   collect_map_name resolve order⟩

/-- Witness for the amended claim C3 at a concrete run. -/
theorem collect_name_multiplicity_witness :
    (collectResults registeredResolver (dispatchedPairs ["b"] ["com", "net"])).countP
        (fun r => r.Name == "b")
      = (["b"] : List String).count "b" * (["com", "net"] : List String).length ∧
    (collectResults registeredResolver (dispatchedPairs ["b"] ["com", "net"])).map
        (fun r => r.Name)
      = (dispatchedPairs ["b"] ["com", "net"]).map (fun p => p.1) :=
  collect_name_multiplicity registeredResolver ["b"] ["com", "net"]
    (dispatchedPairs ["b"] ["com", "net"]) (List.Perm.refl _) "b"

/-- Claim C4, counterexample: with an empty entry in the name list, `main`
dispatches a probe for the empty name (the goroutine probes `.com`) and the
final collection contains an entry whose name is the empty string. -/
theorem empty_name_probed_and_collected :
    dispatchedPairs ["", "site"] ["com"] = [("", "com"), ("site", "com")] ∧
    (collectResults registeredResolver (dispatchedPairs ["", "site"] ["com"])).countP
        (fun r => r.Name == "") = 1 :=
  ⟨rfl, rfl⟩

/-- Claim C4, amended: the concurrent dispatcher of `main` performs no blank
filtering — one probe goroutine is dispatched per (empty entry, tld) pair and
the finalized collection contains one empty-named entry per such pair: the
number of empty-named probes and of empty-named results both equal
(multiplicity of the empty string in the name list) × (number of TLDs). -/
theorem empty_names_not_filtered (resolve : Resolver) (names tlds : List String)
    (order : List (String × String))
    (hperm : order.Perm (dispatchedPairs names tlds)) :
    (dispatchedPairs names tlds).countP (fun p => p.1 == "")
        = names.count "" * tlds.length ∧
    (collectResults resolve order).countP (fun r => r.Name == "")
        = names.count "" * tlds.length :=
  ⟨dispatched_countP_fst names tlds "",
   collect_countP_name resolve names tlds order hperm ""⟩

/-- Witness for the amended claim C4 at a concrete run. -/
theorem empty_names_not_filtered_witness :
    (dispatchedPairs ["", "site"] ["com", "net"]).countP (fun p => p.1 == "")
        = (["", "site"] : List String).count "" * (["com", "net"] : List String).length ∧
    (collectResults registeredResolver
        (dispatchedPairs ["", "site"] ["com", "net"])).countP (fun r => r.Name == "")
        = (["", "site"] : List String).count "" * (["com", "net"] : List String).length :=
  empty_names_not_filtered registeredResolver ["", "site"] ["com", "net"]
    (dispatchedPairs ["", "site"] ["com", "net"]) (List.Perm.refl _)

/-- Claim C5: for every (name, tld) pair whose probe completes without a
transient error, the finalized output contains exactly one verdict for that
tld under that name per occurrence of the pair in the input cross product —
for duplicate-free inputs exactly one — regardless of completion order:
verdicts are neither lost nor duplicated beyond input duplication. -/
theorem verdict_exactly_once (resolve : Resolver) (names tlds : List String)
    (order : List (String × String))
    (hperm : order.Perm (dispatchedPairs names tlds)) (n t : String)
    (htr : classifyOutcome (resolve (n ++ "." ++ t)) ≠ Outcome.TransientError) :
    verdictCount (collectResults resolve order) n t
      = names.count n * tlds.count t := by
  apply verdictCount_collect resolve names tlds order hperm
  unfold isDomainNameAvailable
  cases hr : resolve (n ++ "." ++ t) with
  | ok addrs => rfl
  | err e =>
    cases e with
    | dnsError d => rfl
    | otherError msg =>
      exact absurd (by simp [classifyOutcome, hr]) htr

/-- Witness for claim C5 at a concrete run: a registered pair yields exactly
one verdict. -/
theorem verdict_exactly_once_witness :
    verdictCount (collectResults registeredResolver
        (dispatchedPairs ["a"] ["com"])) "a" "com"
      = (["a"] : List String).count "a" * (["com"] : List String).count "com" :=
  verdict_exactly_once registeredResolver ["a"] ["com"]
    (dispatchedPairs ["a"] ["com"]) (List.Perm.refl _) "a" "com" (by decide)

/-- Claim C6: full join barrier — in every reachable state of the channel
model in which the result channel has been closed (the only states in which
the fan-in loop can have finished and the presentation code can run), no
goroutine is still pending and the delivered collection is complete: it is
exactly the per-pair `Result` of some permutation of all dispatched
(name, tld) pairs, so the presentation layer only ever observes the single
finalized, complete collection. -/
theorem closed_means_complete (resolve : Resolver) (names tlds : List String)
    (s : ChanState) (hreach : Reachable resolve (initState names tlds) s)
    (hclosed : s.closed = true) :
    s.pending = [] ∧
    ∃ done : List (String × String), done.Perm (dispatchedPairs names tlds) ∧
      s.delivered = done.map (pairResult resolve) := by
  obtain ⟨done, hdel, hperm, hcl⟩ := chanInv_reachable resolve names tlds hreach
  have hpend := hcl hclosed
  refine ⟨hpend, done, ?_, hdel⟩
  rw [hpend] at hperm
  simpa using hperm

/-- Witness for claim C6 on a concrete execution: dispatch the single pair
(a, com), deliver it, close the channel; the theorem yields the completeness
of the delivered collection in the closed state. -/
theorem closed_means_complete_witness :
    (ChanState.mk [] [pairResult registeredResolver ("a", "com")] true).pending = [] ∧
    ∃ done : List (String × String),
      done.Perm (dispatchedPairs ["a"] ["com"]) ∧
      (ChanState.mk [] [pairResult registeredResolver ("a", "com")] true).delivered
        = done.map (pairResult registeredResolver) := by
  have h1 : Step registeredResolver (initState ["a"] ["com"])
      (ChanState.mk ([] ++ []) ([] ++ [pairResult registeredResolver ("a", "com")]) false) :=
    Step.deliver [] [] ("a", "com") []
  have h2 : Step registeredResolver
      (ChanState.mk ([] ++ []) ([] ++ [pairResult registeredResolver ("a", "com")]) false)
      (ChanState.mk [] [pairResult registeredResolver ("a", "com")] true) :=
    Step.close ([] ++ [pairResult registeredResolver ("a", "com")])
  exact closed_means_complete registeredResolver ["a"] ["com"] _
    (Relation.ReflTransGen.head h1 (Relation.ReflTransGen.single h2)) rfl

/-- Claim C7: no deduplication anywhere in the core — `main` dispatches the
full cross product, so the number of probe goroutines for a pair (n, t)
equals the product of the multiplicities of n and t in the two input lists,
the total number of dispatched probes is the product of the list lengths, and
a duplicated input name yields duplicated verdicts in the finalized output. -/
theorem dispatch_no_dedup :
    (∀ (names tlds : List String) (n t : String),
      (dispatchedPairs names tlds).count (n, t) = names.count n * tlds.count t) ∧
    (∀ names tlds : List String,
      (dispatchedPairs names tlds).length = names.length * tlds.length) ∧
    verdictCount (collectResults registeredResolver
      (dispatchedPairs ["mysite", "mysite"] ["com"])) "mysite" "com" = 2 :=
  ⟨dispatched_count_pair, dispatched_length, rfl⟩

/-- Claim C8: finalization is deterministic with respect to the completed
accumulation — two runs (with possibly different resolvers and completion
orders) that reach the same completed accumulation produce identical
observable output: the same console lines, the same spooled plain-text lines
and the same flattened verdicts; in particular rendering the same completed
accumulation twice yields identical output. -/
theorem finalize_deterministic (resolve1 resolve2 : Resolver)
    (order1 order2 : List (String × String))
    (hacc : collectResults resolve1 order1 = collectResults resolve2 order2) :
    consoleLines (collectResults resolve1 order1)
        = consoleLines (collectResults resolve2 order2) ∧
    spoolPlainLines (collectResults resolve1 order1)
        = spoolPlainLines (collectResults resolve2 order2) ∧
    flatVerdicts (collectResults resolve1 order1)
        = flatVerdicts (collectResults resolve2 order2) := by
  rw [hacc]
  exact ⟨rfl, rfl, rfl⟩

/-- Witness for claim C8 at a concrete accumulation. -/
theorem finalize_deterministic_witness :
    consoleLines (collectResults registeredResolver (dispatchedPairs ["a"] ["com"]))
        = consoleLines (collectResults registeredResolver (dispatchedPairs ["a"] ["com"])) ∧
    spoolPlainLines (collectResults registeredResolver (dispatchedPairs ["a"] ["com"]))
        = spoolPlainLines (collectResults registeredResolver (dispatchedPairs ["a"] ["com"])) ∧
    flatVerdicts (collectResults registeredResolver (dispatchedPairs ["a"] ["com"]))
        = flatVerdicts (collectResults registeredResolver (dispatchedPairs ["a"] ["com"])) :=
  finalize_deterministic registeredResolver registeredResolver
    (dispatchedPairs ["a"] ["com"]) (dispatchedPairs ["a"] ["com"]) rfl

/-- Claim C9: `isDomainNameAvailable` never reports availability together
with a non-nil error — for every resolver and domain, the returned pair has
availability `false` or error `nil` (so `available=true` implies a nil error,
and a non-nil error implies `available=false`). -/
theorem available_implies_nil_error (resolve : Resolver) (domain : String) :
    (isDomainNameAvailable resolve domain).1 = false ∨
    (isDomainNameAvailable resolve domain).2 = none := by
  unfold isDomainNameAvailable
  cases resolve domain with
  | ok addrs => exact Or.inl rfl
  | err e =>
    cases e with
    | dnsError d => exact Or.inr rfl
    | otherError msg => exact Or.inl rfl

/-- Claim C10: each `checkDomains` invocation sends exactly one `Result` on
the channel, even when every one of its lookups errors (the verdict list is
then empty); consequently the run's channel carries one message per
dispatched goroutine, the finalized collection has exactly
(number of names) × (number of TLDs) entries, and every step of the channel
model strictly decreases the termination measure, so the fan-in loop
terminates. -/
theorem checkDomains_sends_exactly_one (resolve : Resolver) :
    (∀ (name : String) (tlds : List String),
      (checkDomainsSends resolve name tlds).length = 1) ∧
    (∀ (name : String) (tlds : List String),
      (∀ tld ∈ tlds, ((isDomainNameAvailable resolve (name ++ "." ++ tld)).2).isSome) →
      checkDomainsSends resolve name tlds = [{ Name := name, TLDList := [] }]) ∧
    (∀ (names tlds : List String) (order : List (String × String)),
      order.Perm (dispatchedPairs names tlds) →
      (collectResults resolve order).length = names.length * tlds.length) ∧
    (∀ s s2 : ChanState, Step resolve s s2 → chanMeasure s2 < chanMeasure s) := by
  have hloop : ∀ (name : String) (tlds : List String),
      (∀ tld ∈ tlds, ((isDomainNameAvailable resolve (name ++ "." ++ tld)).2).isSome) →
      checkDomainsLoop resolve name tlds = [] := by
    intro name tlds h
    induction tlds with
    | nil => rfl
    | cons tld rest ih =>
      have h1 := h tld (List.mem_cons_self tld rest)
      cases h2 : (isDomainNameAvailable resolve (name ++ "." ++ tld)).2 with
      | none => rw [h2] at h1; simp at h1
      | some e =>
        simp only [checkDomainsLoop, h2]
        exact ih fun tl hm => h tl (List.mem_cons_of_mem tld hm)
  refine ⟨fun _ _ => rfl, ?_, ?_, ?_⟩
  · intro name tlds h
    rw [checkDomainsSends, hloop name tlds h]
  · intro names tlds order hperm
    rw [collectResults, List.length_map, hperm.length_eq, dispatched_length]
  · intro s s2 hstep
    cases hstep with
    | deliver pre post p delivered =>
      simp only [chanMeasure, List.length_append, List.length_cons, if_neg]
      simp
    | close delivered => simp [chanMeasure]

/-- Witness for claim C10 at a concrete run: every lookup fails with a
non-DNS error, yet `checkDomains` still sends its single `Result`, with an
empty verdict list. -/
theorem checkDomains_sends_exactly_one_witness :
    (checkDomainsSends brokenResolver "a" ["com"]).length = 1 ∧
    checkDomainsSends brokenResolver "a" ["com"]
      = [{ Name := "a", TLDList := [] }] := by
  have h := checkDomains_sends_exactly_one brokenResolver
  exact ⟨h.1 "a" ["com"], h.2.1 "a" ["com"] (by decide)⟩

end DnCheck
